import Mathlib

/-!
Shallow embedding of the OAuth2 HTTP filter core
(`source/extensions/filters/http/oauth2/filter.cc`): cryptographic
cookie-session validation, CSRF token generation and checking, the
sign-out handler, the token-lifetime policy, the refresh-time cookie
rewrite and the per-request decision machine (`decodeHeaders`).

External collaborators (the HMAC-SHA256 primitive, JSON parsing and
sanitizing, URL parsing, JWT parsing, header matchers, the random
generator and the time source) are modelled as explicit parameters,
following the specification, which treats them as opaque interfaces
consumed by the core.  Base64, Base64Url and hex codecs are embedded
concretely since the session contract depends on their byte-level
behaviour.  Machine integers are modelled as `Nat` with explicit
`% 2 ^ w` reductions where width matters.
-/

namespace Oauth2

/-- Alphabet used by `absl::Base64Escape` (standard base64). -/
def base64Chars : List Char :=
  "ABCDEFGHIJKLMNOPQRSTUVWXYZabcdefghijklmnopqrstuvwxyz0123456789+/".toList

/-- Base64 character of a six-bit group. -/
def sextet (n : Nat) : Char := base64Chars.getD (n % 64) 'A'

/-- Index of a base64 character in the alphabet (inverse of `sextet`). -/
def sextetVal (c : Char) : Nat := base64Chars.findIdx (· == c)

/-- Standard base64 encoding of a byte list with `=` padding, as performed by
`absl::Base64Escape`.  Inputs are reduced mod 256 (the C++ code operates on
`uint8_t`). -/
def base64EncodeList : List Nat → List Char
  | [] => []
  | [a] =>
    let a := a % 256
    [sextet (a / 4), sextet (a % 4 * 16), '=', '=']
  | [a, b] =>
    let a := a % 256
    let b := b % 256
    [sextet (a / 4), sextet (a % 4 * 16 + b / 16), sextet (b % 16 * 4), '=']
  | a :: b :: c :: rest =>
    let a := a % 256
    let b := b % 256
    let c := c % 256
    sextet (a / 4) :: sextet (a % 4 * 16 + b / 16) :: sextet (b % 16 * 4 + c / 64) ::
      sextet (c % 64) :: base64EncodeList rest

/-- Base64 decoding (four characters at a time); used only to establish that
the encoding is injective on byte lists. -/
def base64DecodeList : List Char → List Nat
  | c1 :: c2 :: c3 :: c4 :: rest =>
    if c3 = '=' then [sextetVal c1 * 4 + sextetVal c2 / 16]
    else if c4 = '=' then
      [sextetVal c1 * 4 + sextetVal c2 / 16, sextetVal c2 % 16 * 16 + sextetVal c3 / 4]
    else
      (sextetVal c1 * 4 + sextetVal c2 / 16) ::
        (sextetVal c2 % 16 * 16 + sextetVal c3 / 4) ::
        (sextetVal c3 % 4 * 64 + sextetVal c4) :: base64DecodeList rest
  | _ => []

/-- Lowercase hex digit of a four-bit group (`Envoy::Hex`). -/
def hexDigit (n : Nat) : Char := "0123456789abcdef".toList.getD (n % 16) '0'

/-- Lowercase hex encoding of a byte list (`Hex::encode`). -/
def hexEncodeList : List Nat → List Char
  | [] => []
  | b :: rest => hexDigit (b / 16 % 16) :: hexDigit (b % 16) :: hexEncodeList rest

/-- `Hex::encode` returning a string. -/
def hexEncode (bs : List Nat) : String := (hexEncodeList bs).asString

/-- Big-endian byte decomposition of a 64-bit value (`Hex::uint64ToHex`
serialises the value as eight big-endian bytes before hex-encoding). -/
def uint64Bytes (r : Nat) : List Nat := (List.range 8).map (fun i => r / 256 ^ (7 - i) % 256)

/-- `Hex::uint64ToHex`: 16 lowercase hex characters, zero padded. -/
def uint64ToHex (r : Nat) : String := (hexEncodeList (uint64Bytes r)).asString

/-- Byte view of an ASCII string (used when a hex string is re-encoded in
base64 by `encodeHmacHexBase64`). -/
def asciiBytes (s : String) : List Nat := s.data.map Char.toNat

/-- ASCII whitespace recognised by `absl::SimpleAtoi`. -/
def isAsciiSpace (c : Char) : Bool :=
  c = ' ' || c = '\t' || c = '\n' || c = '\r' || c = Char.ofNat 11 || c = Char.ofNat 12

/-- Accumulating decimal parser: fails on any non-digit character. -/
def digitsToNat : List Char → Nat → Option Nat
  | [], acc => some acc
  | c :: rest, acc =>
    if c.isDigit then digitsToNat rest (acc * 10 + (c.toNat - 48)) else none

/-- `absl::SimpleAtoi<uint64_t>`: optional surrounding ASCII whitespace, an
optional leading `+`, at least one decimal digit, and the value must fit in
64 bits; anything else fails. -/
def simpleAtoiU64 (s : String) : Option Nat :=
  let cs := ((s.data.dropWhile isAsciiSpace).reverse.dropWhile isAsciiSpace).reverse
  let cs := match cs with
    | '+' :: rest => rest
    | other => other
  match cs with
  | [] => none
  | _ =>
    match digitsToNat cs 0 with
    | some n => if n < 2 ^ 64 then some n else none
    | none => none

/-- First-match lookup in a parsed cookie jar / query-parameter mapping. -/
def lookupCookie : List (String × String) → String → Option String
  | [], _ => none
  | (k, v) :: rest, key => if k = key then some v else lookupCookie rest key

/-- `findValue`: value for a key in the parsed cookie map, empty when absent. -/
def findValue (m : List (String × String)) (key : String) : String :=
  (lookupCookie m key).getD ""

/-- The six configurable session cookie names. -/
structure CookieNames where
  oauthHmac : String
  oauthExpires : String
  bearerToken : String
  idToken : String
  refreshToken : String
  oauthNonce : String
deriving DecidableEq, Repr

/-- Conventional default cookie names from the specification. -/
def defaultCookieNames : CookieNames :=
  ⟨"OauthHMAC", "OauthExpires", "BearerToken", "IdToken", "RefreshToken", "OauthNonce"⟩

/-- Canonical HMAC payload: the five fields joined by `\n`
(`absl::StrJoin(\x7bdomain, expires, token, id_token, refresh_token\x7d, "\n")`). -/
def hmacPayload (domain expires token idToken refreshToken : String) : String :=
  domain ++ "\n" ++ expires ++ "\n" ++ token ++ "\n" ++ idToken ++ "\n" ++ refreshToken

/-- The HMAC primitive is an external collaborator: a function from a secret
and a message to a byte list. -/
def HmacFun : Type := String → String → List Nat

/-- `generateHmacBase64`: base64 of the raw HMAC bytes. -/
def generateHmacBase64 (hmacF : HmacFun) (secret message : String) : String :=
  (base64EncodeList (hmacF secret message)).asString

/-- `encodeHmacBase64`: base64(raw_hmac_bytes) over the canonical payload. -/
def encodeHmacBase64 (hmacF : HmacFun) (secret domain expires token idToken refreshToken : String) :
    String :=
  generateHmacBase64 hmacF secret (hmacPayload domain expires token idToken refreshToken)

/-- `encodeHmacHexBase64`: base64(hex(raw_hmac_bytes)) over the canonical
payload (legacy encoding accepted on validation). -/
def encodeHmacHexBase64
    (hmacF : HmacFun) (secret domain expires token idToken refreshToken : String) : String :=
  (base64EncodeList
    (asciiBytes (hexEncode (hmacF secret
      (hmacPayload domain expires token idToken refreshToken))))).asString

/-- State captured by `OAuth2CookieValidator::setParams`. -/
structure ValidatorParams where
  expires : String
  token : String
  idToken : String
  refreshToken : String
  hmacCookie : String
  host : String
  secret : String
deriving DecidableEq, Repr

/-- `OAuth2CookieValidator::setParams`: read the five session cookies
(missing cookies become empty strings) and the request host. -/
def setParams (names : CookieNames) (cookies : List (String × String)) (host secret : String) :
    ValidatorParams where
  expires := findValue cookies names.oauthExpires
  token := findValue cookies names.bearerToken
  idToken := findValue cookies names.idToken
  refreshToken := findValue cookies names.refreshToken
  hmacCookie := findValue cookies names.oauthHmac
  host := host
  secret := secret

/-- `OAuth2CookieValidator::canUpdateTokenByRefreshToken`. -/
def canUpdateTokenByRefreshToken (v : ValidatorParams) : Bool := !(v.refreshToken == "")

/-- `OAuth2CookieValidator::hmacIsValid`: the cookie HMAC must recompute under
one of the two accepted encodings, over the effective domain (the configured
cookie domain when non-empty, else the request host). -/
def hmacIsValid (hmacF : HmacFun) (cookieDomain : String) (v : ValidatorParams) : Bool :=
  let dom := if cookieDomain = "" then v.host else cookieDomain
  decide (encodeHmacBase64 hmacF v.secret dom v.expires v.token v.idToken v.refreshToken
      = v.hmacCookie) ||
  decide (encodeHmacHexBase64 hmacF v.secret dom v.expires v.token v.idToken v.refreshToken
      = v.hmacCookie)

/-- `OAuth2CookieValidator::timestampIsValid`: the expires cookie must parse
as `uint64` and lie strictly in the future. -/
def timestampIsValid (v : ValidatorParams) (now : Nat) : Bool :=
  match simpleAtoiU64 v.expires with
  | none => false
  | some e => decide (now < e)

/-- `OAuth2CookieValidator::isValid`. -/
def isValid (hmacF : HmacFun) (cookieDomain : String) (v : ValidatorParams) (now : Nat) : Bool :=
  hmacIsValid hmacF cookieDomain v && timestampIsValid v now

/-- Claim C1: for every request cookie set, secret, host and current time,
the session validator reports the session valid iff the recomputed HMAC over
the canonical newline-joined payload (effective domain, expires,
access_token, id_token, refresh_token; missing cookies empty) equals the
hmac cookie under at least one of the two accepted encodings -
base64(raw_hmac_bytes) or base64(hex(raw_hmac_bytes)) - and the expires
cookie parses as epoch seconds strictly greater than the current time. -/
theorem c1_session_validity (hmacF : HmacFun) (names : CookieNames)
    (cookies : List (String × String)) (cookieDomain host secret : String) (now : Nat) :
    isValid hmacF cookieDomain (setParams names cookies host secret) now = true ↔
      ((let dom := if cookieDomain = "" then host else cookieDomain
        let payload := dom ++ "\n" ++ findValue cookies names.oauthExpires ++ "\n" ++
          findValue cookies names.bearerToken ++ "\n" ++ findValue cookies names.idToken ++
          "\n" ++ findValue cookies names.refreshToken
        (base64EncodeList (hmacF secret payload)).asString = findValue cookies names.oauthHmac ∨
          (base64EncodeList (asciiBytes (hexEncode (hmacF secret payload)))).asString
            = findValue cookies names.oauthHmac) ∧
        ∃ e, simpleAtoiU64 (findValue cookies names.oauthExpires) = some e ∧ now < e) := by
  simp only [isValid, hmacIsValid, timestampIsValid, setParams, encodeHmacBase64,
    encodeHmacHexBase64, generateHmacBase64, hmacPayload, Bool.and_eq_true, Bool.or_eq_true,
    decide_eq_true_eq]
  constructor
  · rintro ⟨hh, ht⟩
    refine ⟨hh, ?_⟩
    cases he : simpleAtoiU64 (findValue cookies names.oauthExpires) with
    | none => rw [he] at ht; exact absurd ht (by simp)
    | some e => rw [he] at ht; exact ⟨e, rfl, of_decide_eq_true ht⟩
  · rintro ⟨hh, e, he, hlt⟩
    exact ⟨hh, by rw [he]; exact decide_eq_true hlt⟩

/-- Claim C9: whenever the expires cookie value fails to parse as an unsigned
64-bit decimal (including the empty string left by an absent cookie), the
session validator reports the session invalid, whatever the HMAC cookie
holds: expiry parsing fails closed. -/
theorem c9_expiry_fails_closed (hmacF : HmacFun) (names : CookieNames)
    (cookies : List (String × String)) (cookieDomain host secret : String) (now : Nat)
    (h : simpleAtoiU64 (findValue cookies names.oauthExpires) = none) :
    isValid hmacF cookieDomain (setParams names cookies host secret) now = false := by
  have hts : timestampIsValid (setParams names cookies host secret) now = false := by
    simp only [timestampIsValid, setParams]
    rw [h]
  simp [isValid, hts]

/-- Witness for C9: concrete cookie jar whose expires cookie is the
non-numeric string `"notanumber"`; the validator rejects the session. -/
theorem c9_expiry_fails_closed_witness :
    simpleAtoiU64 (findValue [("OauthExpires", "notanumber"), ("OauthHMAC", "h")]
        defaultCookieNames.oauthExpires) = none ∧
      isValid (fun _ _ => []) ""
        (setParams defaultCookieNames [("OauthExpires", "notanumber"), ("OauthHMAC", "h")]
          "example.com" "secret") 0 = false :=
  ⟨by decide,
    c9_expiry_fails_closed (fun _ _ => []) defaultCookieNames
      [("OauthExpires", "notanumber"), ("OauthHMAC", "h")] "" "example.com" "secret" 0 (by decide)⟩

theorem sextetVal_sextet : ∀ k, k < 64 → sextetVal (sextet k) = k := by decide

theorem sextet_ne_dot (n : Nat) : sextet n ≠ '.' := by
  have h : ∀ k, k < 64 → base64Chars.getD k 'A' ≠ '.' := by decide
  exact h (n % 64) (Nat.mod_lt _ (by decide))

theorem sextet_ne_eq (n : Nat) : sextet n ≠ '=' := by
  have h : ∀ k, k < 64 → base64Chars.getD k 'A' ≠ '=' := by decide
  exact h (n % 64) (Nat.mod_lt _ (by decide))

theorem base64EncodeList_ne_dot (bs : List Nat) : ∀ c ∈ base64EncodeList bs, c ≠ '.' := by
  induction bs using base64EncodeList.induct with
  | case1 => simp [base64EncodeList]
  | case2 a =>
    intro c hc
    simp only [base64EncodeList, List.mem_cons, List.not_mem_nil, or_false] at hc
    rcases hc with h | h | h | h <;> subst h
    · exact sextet_ne_dot _
    · exact sextet_ne_dot _
    · decide
    · decide
  | case3 a b =>
    intro c hc
    simp only [base64EncodeList, List.mem_cons, List.not_mem_nil, or_false] at hc
    rcases hc with h | h | h | h <;> subst h
    · exact sextet_ne_dot _
    · exact sextet_ne_dot _
    · exact sextet_ne_dot _
    · decide
  | case4 a b c rest ih =>
    intro x hx
    simp only [base64EncodeList, List.mem_cons] at hx
    rcases hx with h | h | h | h | h
    · subst h; exact sextet_ne_dot _
    · subst h; exact sextet_ne_dot _
    · subst h; exact sextet_ne_dot _
    · subst h; exact sextet_ne_dot _
    · exact ih x h

theorem base64_roundtrip (bs : List Nat) (hb : ∀ b ∈ bs, b < 256) :
    base64DecodeList (base64EncodeList bs) = bs := by
  induction bs using base64EncodeList.induct with
  | case1 => rfl
  | case2 a =>
    have ha : a < 256 := hb a (by simp)
    have hm : a % 256 = a := Nat.mod_eq_of_lt ha
    have henc : base64EncodeList [a] = [sextet (a / 4), sextet (a % 4 * 16), '=', '='] := by
      simp only [base64EncodeList, hm]
    rw [henc]
    simp only [base64DecodeList, reduceIte]
    rw [sextetVal_sextet _ (by omega), sextetVal_sextet _ (by omega)]
    simp only [List.cons.injEq]
    exact ⟨by omega, trivial⟩
  | case3 a b =>
    have ha : a < 256 := hb a (by simp)
    have hb2 : b < 256 := hb b (by simp)
    have hma : a % 256 = a := Nat.mod_eq_of_lt ha
    have hmb : b % 256 = b := Nat.mod_eq_of_lt hb2
    have henc : base64EncodeList [a, b] =
        [sextet (a / 4), sextet (a % 4 * 16 + b / 16), sextet (b % 16 * 4), '='] := by
      simp only [base64EncodeList, hma, hmb]
    rw [henc]
    simp only [base64DecodeList]
    rw [if_neg (sextet_ne_eq _)]
    simp only [if_true]
    rw [sextetVal_sextet _ (by omega), sextetVal_sextet _ (by omega),
      sextetVal_sextet _ (by omega)]
    simp only [List.cons.injEq]
    exact ⟨by omega, by omega, trivial⟩
  | case4 a b c rest ih =>
    have ha : a < 256 := hb a (by simp)
    have hb2 : b < 256 := hb b (by simp)
    have hc : c < 256 := hb c (by simp)
    have hrest : ∀ x ∈ rest, x < 256 := fun x hx => hb x (by simp [hx])
    have hma : a % 256 = a := Nat.mod_eq_of_lt ha
    have hmb : b % 256 = b := Nat.mod_eq_of_lt hb2
    have hmc : c % 256 = c := Nat.mod_eq_of_lt hc
    have henc : base64EncodeList (a :: b :: c :: rest) =
        sextet (a / 4) :: sextet (a % 4 * 16 + b / 16) :: sextet (b % 16 * 4 + c / 64) ::
          sextet (c % 64) :: base64EncodeList rest := by
      simp only [base64EncodeList, hma, hmb, hmc]
    rw [henc]
    simp only [base64DecodeList]
    rw [if_neg (sextet_ne_eq _), if_neg (sextet_ne_eq _)]
    rw [sextetVal_sextet _ (by omega), sextetVal_sextet _ (by omega),
      sextetVal_sextet _ (by omega), sextetVal_sextet _ (by omega), ih hrest]
    simp only [List.cons.injEq]
    exact ⟨by omega, by omega, by omega, trivial⟩

theorem base64EncodeList_inj {bs1 bs2 : List Nat} (h1 : ∀ b ∈ bs1, b < 256)
    (h2 : ∀ b ∈ bs2, b < 256) (h : base64EncodeList bs1 = base64EncodeList bs2) : bs1 = bs2 := by
  have hd := congrArg base64DecodeList h
  rwa [base64_roundtrip bs1 h1, base64_roundtrip bs2 h2] at hd

theorem asString_inj {l1 l2 : List Char} (h : l1.asString = l2.asString) : l1 = l2 :=
  congrArg String.data h

theorem hexDigit_ne_dot (n : Nat) : hexDigit n ≠ '.' := by
  have h : ∀ k, k < 16 → ("0123456789abcdef".toList.getD k '0') ≠ '.' := by decide
  exact h (n % 16) (Nat.mod_lt _ (by decide))

theorem hexEncodeList_ne_dot (bs : List Nat) : ∀ c ∈ hexEncodeList bs, c ≠ '.' := by
  induction bs with
  | nil => simp [hexEncodeList]
  | cons b rest ih =>
    intro c hc
    simp only [hexEncodeList, List.mem_cons] at hc
    rcases hc with h | h | h
    · subst h; exact hexDigit_ne_dot _
    · subst h; exact hexDigit_ne_dot _
    · exact ih c h

theorem hexEncodeList_length (bs : List Nat) : (hexEncodeList bs).length = 2 * bs.length := by
  induction bs with
  | nil => rfl
  | cons b rest ih => simp [hexEncodeList, ih]; omega

theorem uint64Bytes_length (r : Nat) : (uint64Bytes r).length = 8 := by
  simp [uint64Bytes]

theorem uint64ToHex_data_length (r : Nat) : (uint64ToHex r).data.length = 16 := by
  show (hexEncodeList (uint64Bytes r)).length = 16
  rw [hexEncodeList_length, uint64Bytes_length]

/-- Generates the CSRF token `<nonce>.<base64(hmac(secret, nonce))>` where the
nonce is the 16-character lowercase hex encoding of a fresh 64-bit random
value (`generateCsrfToken`). -/
def generateCsrfToken (hmacF : HmacFun) (secret : String) (r : Nat) : String :=
  uint64ToHex r ++ "." ++ generateHmacBase64 hmacF secret (uint64ToHex r)

/-- Split a character list at the first `.` (`std::string::find`). -/
def splitFirstDot : List Char → Option (List Char × List Char)
  | [] => none
  | c :: rest =>
    if c = '.' then some ([], rest)
    else
      match splitFirstDot rest with
      | none => none
      | some (t, h) => some (c :: t, h)

/-- `validateCsrfTokenHmac`: split at the first `.`, recompute the HMAC of the
nonce part, and accept iff it equals the HMAC part. -/
def validateCsrfTokenHmac (hmacF : HmacFun) (secret csrfToken : String) : Bool :=
  match splitFirstDot csrfToken.data with
  | none => false
  | some (t, h) => decide (generateHmacBase64 hmacF secret t.asString = h.asString)

theorem splitFirstDot_append (xs ys : List Char) (h : ∀ c ∈ xs, c ≠ '.') :
    splitFirstDot (xs ++ '.' :: ys) = some (xs, ys) := by
  induction xs with
  | nil => simp [splitFirstDot]
  | cons x xs ih =>
    have hx : x ≠ '.' := h x (by simp)
    simp only [List.cons_append, splitFirstDot, if_neg hx, List.append_eq]
    rw [ih (fun c hc => h c (by simp [hc]))]

theorem generateCsrfToken_data (hmacF : HmacFun) (secret : String) (r : Nat) :
    (generateCsrfToken hmacF secret r).data =
      (uint64ToHex r).data ++ '.' :: (generateHmacBase64 hmacF secret (uint64ToHex r)).data := by
  simp [generateCsrfToken, String.data_append]

theorem data_asString (l : List Char) : (l.asString).data = l := rfl

theorem uint64ToHex_ne_dot (r : Nat) : ∀ c ∈ (uint64ToHex r).data, c ≠ '.' :=
  hexEncodeList_ne_dot _

theorem validateCsrfTokenHmac_asString (hmacF : HmacFun) (secret : String) (l : List Char) :
    validateCsrfTokenHmac hmacF secret l.asString =
      match splitFirstDot l with
      | none => false
      | some (t, h) => decide (generateHmacBase64 hmacF secret t.asString = h.asString) := rfl

/-- Claim C6: every generated CSRF token `hex(random_64bit) ++ "." ++
base64(hmac(secret, nonce))` passes HMAC validation under the same secret,
and any token obtained from it by changing one character of the nonce part
(positions 0..15) or of the HMAC part (positions 17..) fails validation.
The two hypotheses make the idealised collision-freedom of the external
HMAC-SHA256 primitive explicit: outputs are bytes and distinct messages
yield distinct MACs under the fixed secret. -/
theorem c6_csrf_integrity (hmacF : HmacFun) (secret : String) (r : Nat)
    (hbytes : ∀ m b, b ∈ hmacF secret m → b < 256)
    (hinj : ∀ m₁ m₂, hmacF secret m₁ = hmacF secret m₂ → m₁ = m₂) :
    validateCsrfTokenHmac hmacF secret (generateCsrfToken hmacF secret r) = true ∧
      ∀ i c, i < (generateCsrfToken hmacF secret r).data.length → i ≠ 16 →
        c ≠ (generateCsrfToken hmacF secret r).data.getD i '.' →
        validateCsrfTokenHmac hmacF secret
          (((generateCsrfToken hmacF secret r).data.set i c).asString) = false := by
  have htok := generateCsrfToken_data hmacF secret r
  have hnlLen : (uint64ToHex r).data.length = 16 := uint64ToHex_data_length r
  have hnlDot : ∀ c ∈ (uint64ToHex r).data, c ≠ '.' := uint64ToHex_ne_dot r
  have hhlDot : ∀ c ∈ (generateHmacBase64 hmacF secret (uint64ToHex r)).data, c ≠ '.' :=
    base64EncodeList_ne_dot _
  constructor
  · unfold validateCsrfTokenHmac
    rw [htok, splitFirstDot_append _ _ hnlDot]
    exact decide_eq_true rfl
  · intro i c hi hne hc
    rw [htok] at hi hc ⊢
    have hlen : ((uint64ToHex r).data ++
        '.' :: (generateHmacBase64 hmacF secret (uint64ToHex r)).data).length =
        17 + (generateHmacBase64 hmacF secret (uint64ToHex r)).data.length := by
      rw [List.length_append, hnlLen, List.length_cons]
      omega
    rcases Nat.lt_or_ge i 16 with hlt | hge
    · -- the changed character lies in the nonce part
      have hset : ((uint64ToHex r).data ++
          '.' :: (generateHmacBase64 hmacF secret (uint64ToHex r)).data).set i c =
          (uint64ToHex r).data.set i c ++
            '.' :: (generateHmacBase64 hmacF secret (uint64ToHex r)).data := by
        rw [List.set_append, if_pos (by omega)]
      rw [hset]
      by_cases hcd : c = '.'
      · subst hcd
        have hsplit2 : (uint64ToHex r).data.set i '.' =
            (uint64ToHex r).data.take i ++ '.' :: (uint64ToHex r).data.drop (i + 1) :=
          List.set_eq_take_cons_drop _ (by omega)
        rw [validateCsrfTokenHmac_asString, hsplit2, List.append_assoc, List.cons_append,
          splitFirstDot_append _ _ (fun x hx => hnlDot x (List.mem_of_mem_take hx))]
        apply decide_eq_false
        intro heq
        have hdata := congrArg String.data heq
        rw [data_asString] at hdata
        have hdot : ('.' : Char) ∈
            (generateHmacBase64 hmacF secret ((uint64ToHex r).data.take i).asString).data := by
          rw [hdata]
          exact List.mem_append_right _ (List.mem_cons_self _ _)
        exact base64EncodeList_ne_dot _ '.' hdot rfl
      · have hnos : ∀ x ∈ (uint64ToHex r).data.set i c, x ≠ '.' := by
          intro x hx
          rcases List.mem_or_eq_of_mem_set hx with h | h
          · exact hnlDot x h
          · subst h; exact hcd
        rw [validateCsrfTokenHmac_asString, splitFirstDot_append _ _ hnos]
        apply decide_eq_false
        intro heq
        have heq2 : generateHmacBase64 hmacF secret (((uint64ToHex r).data.set i c).asString) =
            generateHmacBase64 hmacF secret (uint64ToHex r) := heq
        have hbeq : hmacF secret (((uint64ToHex r).data.set i c).asString) =
            hmacF secret (uint64ToHex r) :=
          base64EncodeList_inj (fun b hb => hbytes _ b hb) (fun b hb => hbytes _ b hb)
            (asString_inj heq2)
        have hstr : (((uint64ToHex r).data.set i c).asString) = uint64ToHex r := hinj _ _ hbeq
        have hlist : (uint64ToHex r).data.set i c = (uint64ToHex r).data :=
          congrArg String.data hstr
        have hcc := congrArg (fun l => l[i]?) hlist
        simp only [List.getElem?_set_self (by omega : i < (uint64ToHex r).data.length)] at hcc
        rw [List.getD_eq_getElem?_getD, List.getElem?_append_left (by omega), ← hcc] at hc
        simp at hc
    · -- the changed character lies in the HMAC part
      have h17 : 17 ≤ i := by omega
      have hset : ((uint64ToHex r).data ++
          '.' :: (generateHmacBase64 hmacF secret (uint64ToHex r)).data).set i c =
          (uint64ToHex r).data ++
            ('.' :: (generateHmacBase64 hmacF secret (uint64ToHex r)).data).set (i - 16) c := by
        rw [List.set_append, if_neg (by omega)]
        rw [hnlLen]
      have hsucc : i - 16 = (i - 17) + 1 := by omega
      have hconsset : ('.' :: (generateHmacBase64 hmacF secret (uint64ToHex r)).data).set
          (i - 16) c = '.' :: (generateHmacBase64 hmacF secret (uint64ToHex r)).data.set
            (i - 17) c := by
        rw [hsucc]
        rfl
      rw [hset, hconsset, validateCsrfTokenHmac_asString, splitFirstDot_append _ _ hnlDot]
      apply decide_eq_false
      intro heq
      have hdata : (generateHmacBase64 hmacF secret (uint64ToHex r)).data =
          (generateHmacBase64 hmacF secret (uint64ToHex r)).data.set (i - 17) c := by
        have h1 := congrArg String.data heq
        rw [data_asString] at h1
        exact h1
      have hbound : i - 17 < (generateHmacBase64 hmacF secret (uint64ToHex r)).data.length := by
        rw [hlen] at hi
        omega
      have hcc := congrArg (fun l => l[i - 17]?) hdata
      simp only [List.getElem?_set_self hbound] at hcc
      rw [List.getD_eq_getElem?_getD, List.getElem?_append_right (by omega),
        hnlLen, hsucc, List.getElem?_cons_succ, hcc] at hc
      simp at hc

/-- Four-byte big-endian decomposition of a character code: an injective,
byte-valued encoding used to instantiate the abstract HMAC primitive in
concrete witnesses. -/
def charBytes (n : Nat) : List Nat :=
  [n / 16777216 % 256, n / 65536 % 256, n / 256 % 256, n % 256]

/-- Concrete byte encoding of a string (each character as four bytes). -/
def strBytes (s : String) : List Nat := s.data.flatMap (fun ch => charBytes ch.toNat)

/-- Left inverse of the four-byte decomposition. -/
def charUnbytes : List Nat → List Nat
  | a :: b :: c :: d :: rest => (a * 16777216 + b * 65536 + c * 256 + d) :: charUnbytes rest
  | _ => []

theorem char_toNat_lt (c : Char) : c.toNat < 4294967296 := by
  have h := c.val.val.isLt
  simpa [Char.toNat, UInt32.toNat] using h

theorem char_toNat_inj {a b : Char} (h : a.toNat = b.toNat) : a = b := by
  apply Char.ext
  apply UInt32.ext
  simpa [Char.toNat, UInt32.toNat] using h

theorem charUnbytes_flatMap (l : List Char) :
    charUnbytes (l.flatMap (fun ch => charBytes ch.toNat)) = l.map Char.toNat := by
  induction l with
  | nil => rfl
  | cons ch l ih =>
    have hlt : ch.toNat < 4294967296 := char_toNat_lt ch
    simp only [List.flatMap_cons, charBytes, List.cons_append, List.nil_append, charUnbytes, ih,
      List.map_cons]
    congr 1
    omega

theorem strBytes_inj {s1 s2 : String} (h : strBytes s1 = strBytes s2) : s1 = s2 := by
  have h1 := congrArg charUnbytes h
  rw [show strBytes s1 = s1.data.flatMap (fun ch => charBytes ch.toNat) from rfl,
    show strBytes s2 = s2.data.flatMap (fun ch => charBytes ch.toNat) from rfl,
    charUnbytes_flatMap, charUnbytes_flatMap] at h1
  apply String.ext
  have hinj : Function.Injective Char.toNat := fun _ _ hab => char_toNat_inj hab
  exact List.map_injective_iff.mpr hinj h1

theorem strBytes_lt (m : String) : ∀ b ∈ strBytes m, b < 256 := by
  intro b hb
  rcases List.mem_flatMap.mp hb with ⟨ch, _, hmem⟩
  simp only [charBytes, List.mem_cons, List.not_mem_nil, or_false] at hmem
  rcases hmem with h | h | h | h <;> subst h <;> exact Nat.mod_lt _ (by decide)

/-- Concrete instantiation of the HMAC interface used by witnesses: ignore
the secret and emit the injective byte encoding of the message. -/
def hmacW : HmacFun := fun _ m => strBytes m

/-- Witness for C6: with the concrete injective `hmacW`, the token generated
from random value 0 validates, and changing the first nonce character to
`z` makes validation fail. -/
theorem c6_csrf_integrity_witness :
    validateCsrfTokenHmac hmacW "k" (generateCsrfToken hmacW "k" 0) = true ∧
      validateCsrfTokenHmac hmacW "k"
        (((generateCsrfToken hmacW "k" 0).data.set 0 'z').asString) = false := by
  have h := c6_csrf_integrity hmacW "k" 0 (fun m b hb => strBytes_lt m b hb)
    (fun _ _ hb => strBytes_inj hb)
  exact ⟨h.1, h.2 0 'z' (by decide) (by decide) (by decide)⟩

/-- URL-safe base64 alphabet (`Base64Url`). -/
def base64UrlChars : List Char :=
  "ABCDEFGHIJKLMNOPQRSTUVWXYZabcdefghijklmnopqrstuvwxyz0123456789-_".toList

/-- URL-safe base64 character of a six-bit group. -/
def sextetUrl (n : Nat) : Char := base64UrlChars.getD (n % 64) 'A'

/-- `Base64Url::encode`: URL-safe alphabet, no padding. -/
def base64UrlEncodeList : List Nat → List Char
  | [] => []
  | [a] =>
    let a := a % 256
    [sextetUrl (a / 4), sextetUrl (a % 4 * 16)]
  | [a, b] =>
    let a := a % 256
    let b := b % 256
    [sextetUrl (a / 4), sextetUrl (a % 4 * 16 + b / 16), sextetUrl (b % 16 * 4)]
  | a :: b :: c :: rest =>
    let a := a % 256
    let b := b % 256
    let c := c % 256
    sextetUrl (a / 4) :: sextetUrl (a % 4 * 16 + b / 16) :: sextetUrl (b % 16 * 4 + c / 64) ::
      sextetUrl (c % 64) :: base64UrlEncodeList rest

/-- `encodeState`: Base64Url of the two-field JSON object holding the
original request URL and the CSRF token; `Json::sanitize` is supplied as an
external escaping function. -/
def encodeState (jsonSanitize : String → String) (originalRequestUrl csrfToken : String) :
    String :=
  (base64UrlEncodeList (asciiBytes ("\x7b\"url\":\"" ++ jsonSanitize originalRequestUrl ++
    "\",\"csrf_token\":\"" ++ jsonSanitize csrfToken ++ "\"\x7d"))).asString

/-- Per-cookie SameSite configuration value
(`CookieConfig_SameSite`, `DISABLED` when unconfigured). -/
inductive SameSiteValue where
  | disabled
  | strict
  | lax
  | noneValue
deriving DecidableEq, Repr

/-- `getSameSiteString`. -/
def getSameSiteString : SameSiteValue → String
  | .strict => ";SameSite=Strict"
  | .lax => ";SameSite=Lax"
  | .noneValue => ";SameSite=None"
  | .disabled => ""

/-- `CookieSettings` (per-cookie configuration; only SameSite matters to the
embedded code paths). -/
structure CookieSettings where
  sameSite : SameSiteValue := .disabled
deriving DecidableEq, Repr

/-- The filter configuration fields consumed by the embedded code paths.
Path matchers are opaque predicates over the path, per the specification.
Field defaults exist only to shorten concrete instantiations in witnesses;
they model no protobuf defaulting except `defaultRefreshTokenExpiresIn`,
whose 604800 mirrors the constructor default. -/
structure FilterConfig where
  cookieNames : CookieNames := defaultCookieNames
  cookieDomain : String := ""
  hmacSecret : String := ""
  forwardBearerToken : Bool := false
  preserveAuthorizationHeader : Bool := false
  useRefreshToken : Bool := false
  disableIdTokenSetCookie : Bool := false
  disableAccessTokenSetCookie : Bool := false
  disableRefreshTokenSetCookie : Bool := false
  defaultExpiresIn : Nat := 0
  defaultRefreshTokenExpiresIn : Nat := 604800
  bearerTokenCookieSettings : CookieSettings := {}
  hmacCookieSettings : CookieSettings := {}
  expiresCookieSettings : CookieSettings := {}
  idTokenCookieSettings : CookieSettings := {}
  refreshTokenCookieSettings : CookieSettings := {}
  nonceCookieSettings : CookieSettings := {}
  redirectMatch : String → Bool := fun _ => false
  signoutMatch : String → Bool := fun _ => false

/-- `PROTOBUF_GET_SECONDS_OR_DEFAULT(proto, default_refresh_token_expires_in,
604800)` from the `FilterConfig` constructor. -/
def mkDefaultRefreshTokenExpiresIn (configured : Option Nat) : Nat := configured.getD 604800

/-- Value of a field of the JSON `state` object: `string_value()` of a
non-string protobuf value is the empty string. -/
inductive JsonVal where
  | str (s : String)
  | other
deriving DecidableEq, Repr

/-- `Value::string_value`. -/
def JsonVal.stringValue : JsonVal → String
  | .str s => s
  | .other => ""

/-- Result of `Http::Utility::Url::initialize`, reduced to the one accessor
the filter reads. -/
structure UrlModel where
  pathAndQueryParams : String
deriving DecidableEq, Repr

/-- Field lookup in a parsed JSON object (`Struct::fields`). -/
def lookupField : List (String × JsonVal) → String → Option JsonVal
  | [], _ => none
  | (k, v) :: rest, key => if k = key then some v else lookupField rest key

/-- External collaborators consumed by the decision machine, all opaque:
the HMAC primitive, `Base64Url::decode` (empty string on failure),
`MessageUtil::loadFromJsonNoThrow` (`none` on parse failure),
`Http::Utility::Url::initialize` (`none` when initialization fails),
`Json::sanitize`, `PercentEncoding::urlEncodeQueryParameter`, and the
authorization-URL builder (endpoint query rewriting plus the resource
suffix, a function of the `state` value and the escaped redirect uri). -/
structure Ext where
  hmac : HmacFun := fun _ _ => []
  base64UrlDecode : String → String := fun _ => ""
  jsonParse : String → Option (List (String × JsonVal)) := fun _ => none
  urlParse : String → Option UrlModel := fun _ => none
  jsonSanitize : String → String := id
  urlEncode : String → String := id
  buildAuthUrl : String → String → String := fun _ _ => ""

/-- The per-request inputs read by `decodeHeaders`.  `cookies` is the parsed
cookie jar and `queryParams` the parsed query string of the path (the
parsers are external utilities); the matcher outcomes are opaque booleans
over the request headers; `formattedRedirectUri` is the output of the
redirect-uri formatter on this request's headers. -/
structure Request where
  host : String := "host"
  path : String := "/"
  scheme : String := "https"
  cookies : List (String × String) := []
  queryParams : List (String × String) := []
  passThroughMatches : Bool := false
  denyRedirectMatches : Bool := false
  formattedRedirectUri : String := ""

/-- `OAuth2Filter::validateCsrfToken`: the nonce cookie must exist, be
byte-equal to the `state`'s CSRF token, and carry a valid HMAC. -/
def validateCsrfToken (hmacF : HmacFun) (cfg : FilterConfig) (req : Request)
    (csrfToken : String) : Bool :=
  match lookupCookie req.cookies cfg.cookieNames.oauthNonce with
  | some v => decide (v = csrfToken) && validateCsrfTokenHmac hmacF cfg.hmacSecret csrfToken
  | none => false

/-- Result of `OAuth2Filter::validateOAuthCallback`. -/
structure CallbackValidationResult where
  isValid : Bool
  authCode : String
  originalRequestUrl : String
deriving DecidableEq, Repr

/-- `OAuth2Filter::validateOAuthCallback`: fail on an `error` query param;
require `code` and `state`; Base64Url-decode and JSON-parse `state`; require
the `url` and `csrf_token` fields; validate the CSRF token against the nonce
cookie; require `url` to parse as a URL. -/
def validateOAuthCallback (ext : Ext) (cfg : FilterConfig) (req : Request) :
    CallbackValidationResult :=
  if (lookupCookie req.queryParams "error").isSome then ⟨false, "", ""⟩
  else
    match lookupCookie req.queryParams "code", lookupCookie req.queryParams "state" with
    | some codeVal, some stateVal =>
      match ext.jsonParse (ext.base64UrlDecode stateVal) with
      | none => ⟨false, "", ""⟩
      | some fields =>
        match lookupField fields "url", lookupField fields "csrf_token" with
        | some urlVal, some csrfVal =>
          if validateCsrfToken ext.hmac cfg req csrfVal.stringValue then
            match ext.urlParse urlVal.stringValue with
            | none => ⟨false, "", ""⟩
            | some _ => ⟨true, codeVal, urlVal.stringValue⟩
          else ⟨false, "", ""⟩
        | _, _ => ⟨false, "", ""⟩
    | _, _ => ⟨false, "", ""⟩

/-- Filter continuation statuses returned by `decodeHeaders`. -/
inductive FilterStatus where
  | cont
  | stopIteration
  | stopAllIterationAndBuffer
  | stopAllIterationAndWatermark
deriving DecidableEq, Repr

/-- Externally visible outcome of the per-request decision: forward to the
next filter, send a local/encoded response (status, body, ordered response
headers, details tag), or pause on one of the two async IdP operations. -/
inductive Action where
  | forward
  | respond (status : Nat) (body : String) (headers : List (String × String)) (tag : String)
  | refreshPause (refreshToken : String)
  | exchangePause (authCode : String) (redirectUri : String)
deriving DecidableEq, Repr

/-- Stats-counter increments produced while deciding one request. -/
structure StatsDelta where
  oauthPassthrough : Nat := 0
  oauthSuccess : Nat := 0
  oauthUnauthorizedRq : Nat := 0
  oauthFailure : Nat := 0
  oauthRefreshtokenSuccess : Nat := 0
  oauthRefreshtokenFailure : Nat := 0
deriving DecidableEq, Repr

/-- Everything `decodeHeaders` produces. -/
structure DecodeResult where
  action : Action
  status : FilterStatus
  stats : StatsDelta
deriving DecidableEq, Repr

/-- `UnauthorizedBodyMessage`. -/
def unauthorizedBodyMessage : String := "OAuth flow failed."

/-- The response sent by `sendUnauthorizedResponse` (its `oauth_failure`
increment is accounted at each call site). -/
def sendUnauthorizedAction : Action := .respond 401 unauthorizedBodyMessage [] ""

/-- `CookieDomainFormatString` applied when a cookie domain is configured. -/
def cookieDomainAttr (cookieDomain : String) : String :=
  if cookieDomain = "" then "" else ";domain=" ++ cookieDomain

/-- `CookieDeleteFormatString`. -/
def cookieDeleteFormat (name : String) : String :=
  name ++ "=deleted; path=/; expires=Thu, 01 Jan 1970 00:00:00 GMT"

/-- `OAuth2Filter::signOutUser`: a 302 carrying one deletion Set-Cookie per
cookie the source deletes, then `Location: <scheme>://<host>/`. -/
def signOutUser (cfg : FilterConfig) (req : Request) : DecodeResult where
  action := .respond 302 ""
    [("set-cookie",
        cookieDeleteFormat cfg.cookieNames.oauthHmac ++ cookieDomainAttr cfg.cookieDomain),
      ("set-cookie",
        cookieDeleteFormat cfg.cookieNames.bearerToken ++ cookieDomainAttr cfg.cookieDomain),
      ("set-cookie",
        cookieDeleteFormat cfg.cookieNames.idToken ++ cookieDomainAttr cfg.cookieDomain),
      ("set-cookie",
        cookieDeleteFormat cfg.cookieNames.refreshToken ++ cookieDomainAttr cfg.cookieDomain),
      ("set-cookie",
        cookieDeleteFormat cfg.cookieNames.oauthNonce ++ cookieDomainAttr cfg.cookieDomain),
      ("location", req.scheme ++ "://" ++ req.host ++ "/")] "oauth.sign_out"
  status := .stopIteration
  stats := {}

/-- `OAuth2Filter::canRedirectToOAuthServer`: no deny-redirect matcher
matches. -/
def canRedirectToOAuthServer (req : Request) : Bool := !req.denyRedirectMatches

/-- `OAuth2Filter::redirectToOAuthServer`: build the original URL with the
https-defaulted scheme; reuse the nonce cookie's CSRF token when present
(validating its HMAC, with a 401 on failure) or mint a fresh one and emit a
Set-Cookie with Max-Age 600 and the nonce cookie's configured SameSite; then
redirect to the authorization URL carrying the encoded `state`. -/
def redirectToOAuthServer (ext : Ext) (cfg : FilterConfig) (req : Request) (rand : Nat) :
    Action × StatsDelta :=
  let scheme := if req.scheme = "http" then "http" else "https"
  let originalUrl := scheme ++ "://" ++ req.host ++ req.path
  match lookupCookie req.cookies cfg.cookieNames.oauthNonce with
  | some csrfToken =>
    if validateCsrfTokenHmac ext.hmac cfg.hmacSecret csrfToken then
      (.respond 302 ""
        [("location", ext.buildAuthUrl (encodeState ext.jsonSanitize originalUrl csrfToken)
            (ext.urlEncode req.formattedRedirectUri))] "oauth.missing_credentials",
        { oauthUnauthorizedRq := 1 })
    else (sendUnauthorizedAction, { oauthFailure := 1 })
  | none =>
    let csrfToken := generateCsrfToken ext.hmac cfg.hmacSecret rand
    (.respond 302 ""
      [("set-cookie", cfg.cookieNames.oauthNonce ++ "=" ++ csrfToken ++
          (cookieDomainAttr cfg.cookieDomain ++ (";path=/;Max-Age=600;secure;HttpOnly" ++
            getSameSiteString cfg.nonceCookieSettings.sameSite))),
        ("location", ext.buildAuthUrl (encodeState ext.jsonSanitize originalUrl csrfToken)
          (ext.urlEncode req.formattedRedirectUri))] "oauth.missing_credentials",
      { oauthUnauthorizedRq := 1 })

/-- `OAuth2Filter::decodeHeaders`, the per-request decision machine:
pass-through, sign-out, session validation (`canSkipOAuth`, which increments
`oauth_success` when valid), the race-redirect handling on the callback path
for valid sessions, the refresh fast path, redirect-to-IdP, and callback
handling.  The bearer-forwarding and Authorization-header sanitization are
request-header mutations on the forward path and are not modelled; `now` is
the time source in epoch seconds and `rand` the RNG draw. -/
def decodeHeaders (ext : Ext) (cfg : FilterConfig) (req : Request) (now rand : Nat) :
    DecodeResult :=
  if req.passThroughMatches then ⟨.forward, .cont, { oauthPassthrough := 1 }⟩
  else if cfg.signoutMatch req.path then signOutUser cfg req
  else
    let v := setParams cfg.cookieNames req.cookies req.host cfg.hmacSecret
    if isValid ext.hmac cfg.cookieDomain v now then
      if cfg.redirectMatch req.path then
        let result := validateOAuthCallback ext cfg req
        if result.isValid then
          match ext.urlParse result.originalRequestUrl with
          | some u =>
            if cfg.redirectMatch u.pathAndQueryParams then
              ⟨sendUnauthorizedAction, .stopIteration, { oauthSuccess := 1, oauthFailure := 1 }⟩
            else
              ⟨.respond 302 "" [("location", result.originalRequestUrl)] "oauth.race_redirect",
                .stopIteration, { oauthSuccess := 1 }⟩
          | none =>
            -- unreachable: a valid callback result re-parses the same URL
            ⟨sendUnauthorizedAction, .stopIteration, { oauthSuccess := 1, oauthFailure := 1 }⟩
        else ⟨sendUnauthorizedAction, .stopIteration, { oauthSuccess := 1, oauthFailure := 1 }⟩
      else ⟨.forward, .cont, { oauthSuccess := 1 }⟩
    else
      if !(cfg.redirectMatch req.path) then
        if cfg.useRefreshToken && canUpdateTokenByRefreshToken v then
          ⟨.refreshPause v.refreshToken, .stopAllIterationAndWatermark, {}⟩
        else if canRedirectToOAuthServer req then
          let p := redirectToOAuthServer ext cfg req rand
          ⟨p.1, .stopIteration, p.2⟩
        else ⟨sendUnauthorizedAction, .stopIteration, { oauthFailure := 1 }⟩
      else
        let result := validateOAuthCallback ext cfg req
        if result.isValid then
          ⟨.exchangePause result.authCode req.formattedRedirectUri,
            .stopAllIterationAndBuffer, {}⟩
        else ⟨sendUnauthorizedAction, .stopIteration, { oauthFailure := 1 }⟩

/-- `OAuth2Filter::BuildCookieTail`: SameSite by cookie type (1 bearer,
2 hmac, 3 expires, 4 id, 5 refresh, 6 nonce), Max-Age from the matching
pending expiry, optional domain attribute prepended. -/
def BuildCookieTail (cfg : FilterConfig)
    (expiresIn expiresIdTokenIn expiresRefreshTokenIn : String) (cookieType : Nat) : String :=
  let sameSiteAndTime : String × String :=
    match cookieType with
    | 1 => (getSameSiteString cfg.bearerTokenCookieSettings.sameSite, expiresIn)
    | 2 => (getSameSiteString cfg.hmacCookieSettings.sameSite, expiresIn)
    | 3 => (getSameSiteString cfg.expiresCookieSettings.sameSite, expiresIn)
    | 4 => (getSameSiteString cfg.idTokenCookieSettings.sameSite, expiresIdTokenIn)
    | 5 => (getSameSiteString cfg.refreshTokenCookieSettings.sameSite, expiresRefreshTokenIn)
    | 6 => (getSameSiteString cfg.refreshTokenCookieSettings.sameSite, expiresIn)
    | _ => ("", expiresIn)
  cookieDomainAttr cfg.cookieDomain ++
    (";path=/;Max-Age=" ++ sameSiteAndTime.2 ++ ";secure;HttpOnly" ++ sameSiteAndTime.1)

/-- `OAuth2Filter::getExpiresTimeForRefreshToken`.  `jwtExp` models the
external JWT parser: `some e` when `jwt.parseFromString` succeeds with exp
claim `e` (0 when the claim is absent), `none` when parsing fails; `now` is
the truncated epoch-seconds clock. -/
def getExpiresTimeForRefreshToken (jwtExp : String → Option Nat) (useRefreshToken : Bool)
    (defaultRefreshTokenExpiresIn : Nat) (refreshToken : String) (expiresIn now : Nat) : Nat :=
  if useRefreshToken then
    match jwtExp refreshToken with
    | some e =>
      if e ≠ 0 then (if now < e then e - now else 0)
      else defaultRefreshTokenExpiresIn
    | none => defaultRefreshTokenExpiresIn
  else expiresIn

/-- The refresh-token Max-Age exactly as the specification words it:
`max(exp - now, 0)` for a JWT with non-zero exp when refresh tokens are in
use, else the configured default, else `expires_in`. -/
def refreshTokenMaxAgeSpec (jwtExp : String → Option Nat) (useRefreshToken : Bool)
    (defaultRefreshTokenExpiresIn : Nat) (refreshToken : String) (expiresIn now : Nat) : Int :=
  if useRefreshToken then
    match jwtExp refreshToken with
    | some e =>
      if e ≠ 0 then max ((e : Int) - (now : Int)) 0
      else (defaultRefreshTokenExpiresIn : Int)
    | none => (defaultRefreshTokenExpiresIn : Int)
  else (expiresIn : Int)

/-- `absl::flat_hash_map::insert_or_assign` on the association-list view of
the cookie map. -/
def insertOrAssign : List (String × String) → String → String → List (String × String)
  | [], key, v => [(key, v)]
  | (k, w) :: rest, key, v =>
    if k = key then (key, v) :: rest else (k, w) :: insertOrAssign rest key v

/-- Cookie-map rewrite performed by `OAuth2Filter::finishRefreshAccessTokenFlow`
on the in-flight request: always overwrite hmac and expires, overwrite each
token cookie only when the corresponding pending token is non-empty. -/
def finishRefreshAccessTokenFlowCookies (names : CookieNames)
    (cookies : List (String × String))
    (encodedToken newExpires accessToken idToken refreshToken : String) :
    List (String × String) :=
  let m := insertOrAssign cookies names.oauthHmac encodedToken
  let m := insertOrAssign m names.oauthExpires newExpires
  let m := if accessToken ≠ "" then insertOrAssign m names.bearerToken accessToken else m
  let m := if idToken ≠ "" then insertOrAssign m names.idToken idToken else m
  if refreshToken ≠ "" then insertOrAssign m names.refreshToken refreshToken else m

/-- Claim C7: for every refresh token, `expires_in` and current time, the
refresh-token cookie Max-Age computed by the token-lifetime policy equals
`max(exp - now, 0)` when `use_refresh_token` is enabled and the token is a
JWT with non-zero exp; else `default_refresh_token_expires_in` (whose
configuration default is 604800) when `use_refresh_token` is enabled; else
`expires_in`. -/
theorem c7_refresh_token_max_age (jwtExp : String → Option Nat) (useRefreshToken : Bool)
    (defaultRefreshTokenExpiresIn : Nat) (refreshToken : String) (expiresIn now : Nat) :
    ((getExpiresTimeForRefreshToken jwtExp useRefreshToken defaultRefreshTokenExpiresIn
        refreshToken expiresIn now : Nat) : Int) =
      refreshTokenMaxAgeSpec jwtExp useRefreshToken defaultRefreshTokenExpiresIn refreshToken
        expiresIn now ∧
      mkDefaultRefreshTokenExpiresIn none = 604800 := by
  refine ⟨?_, rfl⟩
  unfold getExpiresTimeForRefreshToken refreshTokenMaxAgeSpec
  rcases useRefreshToken with _ | _
  · simp
  · simp only [if_true]
    cases h : jwtExp refreshToken with
    | none => simp
    | some e =>
      by_cases he : e ≠ 0
      · simp only [if_pos he]
        rcases Nat.lt_or_ge now e with hlt | hge
        · rw [if_pos hlt, max_eq_left (by omega)]
          omega
        · rw [if_neg (by omega), max_eq_right (by omega)]
          simp
      · simp [he]

theorem lookup_insertOrAssign_self (m : List (String × String)) (key v : String) :
    lookupCookie (insertOrAssign m key v) key = some v := by
  induction m with
  | nil => simp [insertOrAssign, lookupCookie]
  | cons p rest ih =>
    obtain ⟨k, w⟩ := p
    by_cases h : k = key
    · subst h
      simp [insertOrAssign, lookupCookie]
    · simp [insertOrAssign, lookupCookie, h, ih]

theorem lookup_insertOrAssign_ne {m : List (String × String)} {key v k2 : String}
    (h : k2 ≠ key) :
    lookupCookie (insertOrAssign m key v) k2 = lookupCookie m k2 := by
  induction m with
  | nil => simp [insertOrAssign, lookupCookie, Ne.symm h]
  | cons p rest ih =>
    obtain ⟨k, w⟩ := p
    by_cases hk : k = key
    · subst hk
      simp [insertOrAssign, lookupCookie, Ne.symm h]
    · simp [insertOrAssign, lookupCookie, hk, ih]

/-- Claim C10: the refresh-success rewrite of the in-flight Cookie mapping
preserves every pair whose name is not one of the five session cookies, and
maps the session names exactly as the code's overwrite-or-retain policy:
hmac and expires always overwritten; each token overwritten only when the
new token is non-empty (otherwise retained). -/
theorem c10_cookie_rewrite_frame (names : CookieNames) (cookies : List (String × String))
    (encodedToken newExpires accessToken idToken refreshToken : String)
    (hnd : ([names.oauthHmac, names.oauthExpires, names.bearerToken, names.idToken,
      names.refreshToken] : List String).Nodup) :
    (∀ k, k ∉ ([names.oauthHmac, names.oauthExpires, names.bearerToken, names.idToken,
        names.refreshToken] : List String) →
      lookupCookie (finishRefreshAccessTokenFlowCookies names cookies encodedToken newExpires
        accessToken idToken refreshToken) k = lookupCookie cookies k) ∧
      lookupCookie (finishRefreshAccessTokenFlowCookies names cookies encodedToken newExpires
        accessToken idToken refreshToken) names.oauthHmac = some encodedToken ∧
      lookupCookie (finishRefreshAccessTokenFlowCookies names cookies encodedToken newExpires
        accessToken idToken refreshToken) names.oauthExpires = some newExpires ∧
      lookupCookie (finishRefreshAccessTokenFlowCookies names cookies encodedToken newExpires
        accessToken idToken refreshToken) names.bearerToken =
        (if accessToken ≠ "" then some accessToken
          else lookupCookie cookies names.bearerToken) ∧
      lookupCookie (finishRefreshAccessTokenFlowCookies names cookies encodedToken newExpires
        accessToken idToken refreshToken) names.idToken =
        (if idToken ≠ "" then some idToken else lookupCookie cookies names.idToken) ∧
      lookupCookie (finishRefreshAccessTokenFlowCookies names cookies encodedToken newExpires
        accessToken idToken refreshToken) names.refreshToken =
        (if refreshToken ≠ "" then some refreshToken
          else lookupCookie cookies names.refreshToken) := by
  simp only [List.nodup_cons, List.mem_cons, List.mem_singleton, List.not_mem_nil, or_false,
    not_or, List.nodup_nil, and_true, not_false_iff] at hnd
  obtain ⟨⟨h12, h13, h14, h15⟩, ⟨h23, h24, h25⟩, ⟨h34, h35⟩, h45⟩ := hnd
  refine ⟨?_, ?_, ?_, ?_, ?_, ?_⟩
  · intro k hk
    simp only [List.mem_cons, List.mem_singleton, List.not_mem_nil, or_false, not_or] at hk
    obtain ⟨hk1, hk2, hk3, hk4, hk5⟩ := hk
    unfold finishRefreshAccessTokenFlowCookies
    split_ifs <;>
      simp only [lookup_insertOrAssign_ne hk5, lookup_insertOrAssign_ne hk4,
        lookup_insertOrAssign_ne hk3, lookup_insertOrAssign_ne hk2,
        lookup_insertOrAssign_ne hk1]
  · unfold finishRefreshAccessTokenFlowCookies
    split_ifs <;>
      simp only [lookup_insertOrAssign_ne h15, lookup_insertOrAssign_ne h14,
        lookup_insertOrAssign_ne h13, lookup_insertOrAssign_ne h12,
        lookup_insertOrAssign_self]
  · unfold finishRefreshAccessTokenFlowCookies
    split_ifs <;>
      simp only [lookup_insertOrAssign_ne h25, lookup_insertOrAssign_ne h24,
        lookup_insertOrAssign_ne h23, lookup_insertOrAssign_self]
  · unfold finishRefreshAccessTokenFlowCookies
    split_ifs <;>
      simp only [lookup_insertOrAssign_ne h35, lookup_insertOrAssign_ne h34,
        lookup_insertOrAssign_self, lookup_insertOrAssign_ne (Ne.symm h23),
        lookup_insertOrAssign_ne (Ne.symm h13)]
  · unfold finishRefreshAccessTokenFlowCookies
    split_ifs <;>
      simp only [lookup_insertOrAssign_ne h45, lookup_insertOrAssign_self,
        lookup_insertOrAssign_ne (Ne.symm h34), lookup_insertOrAssign_ne (Ne.symm h24),
        lookup_insertOrAssign_ne (Ne.symm h14)]
  · unfold finishRefreshAccessTokenFlowCookies
    split_ifs <;>
      simp only [lookup_insertOrAssign_self, lookup_insertOrAssign_ne (Ne.symm h45),
        lookup_insertOrAssign_ne (Ne.symm h35), lookup_insertOrAssign_ne (Ne.symm h25),
        lookup_insertOrAssign_ne (Ne.symm h15)]

/-- Witness for C10: with the default cookie names, a jar holding an
unrelated `theme` cookie and a stale bearer cookie, the rewrite keeps
`theme` untouched and overwrites the session entries. -/
theorem c10_cookie_rewrite_frame_witness :
    lookupCookie (finishRefreshAccessTokenFlowCookies defaultCookieNames
        [("theme", "dark"), ("BearerToken", "old")] "T" "99" "A" "I" "R") "theme" =
        some "dark" ∧
      lookupCookie (finishRefreshAccessTokenFlowCookies defaultCookieNames
        [("theme", "dark"), ("BearerToken", "old")] "T" "99" "A" "I" "R") "OauthHMAC" =
        some "T" := by
  have h := c10_cookie_rewrite_frame defaultCookieNames
    [("theme", "dark"), ("BearerToken", "old")] "T" "99" "A" "I" "R" (by decide)
  exact ⟨h.1 "theme" (by decide), h.2.1⟩

/-- Set-Cookie values carried by a local response. -/
def setCookieValues (r : DecodeResult) : List String :=
  match r.action with
  | .respond _ _ headers _ =>
    headers.filterMap (fun p => if p.1 = "set-cookie" then some p.2 else none)
  | _ => []

/-- Claim C2 (amended): a sign-out request yields a 302 whose headers carry
exactly five deletion Set-Cookie values - hmac, bearer, id, refresh and
nonce, in the fixed deleted format with the optional domain attribute - plus
`Location: <scheme>://<host>/`.  The expires cookie is not deleted. -/
theorem c2_signout_deletes_five_cookies (ext : Ext) (cfg : FilterConfig) (req : Request)
    (now rand : Nat) (hpt : req.passThroughMatches = false)
    (hso : cfg.signoutMatch req.path = true) :
    decodeHeaders ext cfg req now rand =
      ⟨.respond 302 ""
        [("set-cookie",
            cookieDeleteFormat cfg.cookieNames.oauthHmac ++ cookieDomainAttr cfg.cookieDomain),
          ("set-cookie",
            cookieDeleteFormat cfg.cookieNames.bearerToken ++ cookieDomainAttr cfg.cookieDomain),
          ("set-cookie",
            cookieDeleteFormat cfg.cookieNames.idToken ++ cookieDomainAttr cfg.cookieDomain),
          ("set-cookie",
            cookieDeleteFormat cfg.cookieNames.refreshToken ++ cookieDomainAttr cfg.cookieDomain),
          ("set-cookie",
            cookieDeleteFormat cfg.cookieNames.oauthNonce ++ cookieDomainAttr cfg.cookieDomain),
          ("location", req.scheme ++ "://" ++ req.host ++ "/")] "oauth.sign_out",
        .stopIteration, {}⟩ := by
  simp only [decodeHeaders, hpt, hso, Bool.false_eq_true, if_false, if_true]
  rfl

/-- Concrete sign-out configuration used to settle C2. -/
def signOutCfg : FilterConfig := { signoutMatch := fun p => p == "/signout" }

/-- Concrete sign-out request used to settle C2. -/
def signOutReq : Request := { host := "example.com", path := "/signout" }

/-- Counterexample to C2 as stated: at a concrete sign-out request the
response carries exactly five deletion Set-Cookie values, and no deletion is
emitted for the expires cookie, contradicting the claimed six. -/
theorem c2_counterexample :
    setCookieValues (decodeHeaders {} signOutCfg signOutReq 0 0) =
      ["OauthHMAC=deleted; path=/; expires=Thu, 01 Jan 1970 00:00:00 GMT",
        "BearerToken=deleted; path=/; expires=Thu, 01 Jan 1970 00:00:00 GMT",
        "IdToken=deleted; path=/; expires=Thu, 01 Jan 1970 00:00:00 GMT",
        "RefreshToken=deleted; path=/; expires=Thu, 01 Jan 1970 00:00:00 GMT",
        "OauthNonce=deleted; path=/; expires=Thu, 01 Jan 1970 00:00:00 GMT"] ∧
      ¬ ("OauthExpires=deleted; path=/; expires=Thu, 01 Jan 1970 00:00:00 GMT" ∈
        setCookieValues (decodeHeaders {} signOutCfg signOutReq 0 0)) ∧
      (setCookieValues (decodeHeaders {} signOutCfg signOutReq 0 0)).length = 5 :=
  ⟨by decide, by decide, by decide⟩

/-- Witness for the amended C2 at the concrete sign-out request. -/
theorem c2_signout_deletes_five_cookies_witness :
    decodeHeaders {} signOutCfg signOutReq 0 0 =
      ⟨.respond 302 ""
        [("set-cookie", cookieDeleteFormat signOutCfg.cookieNames.oauthHmac ++
            cookieDomainAttr signOutCfg.cookieDomain),
          ("set-cookie", cookieDeleteFormat signOutCfg.cookieNames.bearerToken ++
            cookieDomainAttr signOutCfg.cookieDomain),
          ("set-cookie", cookieDeleteFormat signOutCfg.cookieNames.idToken ++
            cookieDomainAttr signOutCfg.cookieDomain),
          ("set-cookie", cookieDeleteFormat signOutCfg.cookieNames.refreshToken ++
            cookieDomainAttr signOutCfg.cookieDomain),
          ("set-cookie", cookieDeleteFormat signOutCfg.cookieNames.oauthNonce ++
            cookieDomainAttr signOutCfg.cookieDomain),
          ("location", signOutReq.scheme ++ "://" ++ signOutReq.host ++ "/")] "oauth.sign_out",
        .stopIteration, {}⟩ :=
  c2_signout_deletes_five_cookies {} signOutCfg signOutReq 0 0 rfl (by decide)

/-- Claim C4 (amended): the nonce Set-Cookie emitted at redirect-to-IdP
takes its SameSite from the nonce cookie's own configuration; the unused
nonce case of `BuildCookieTail` is the one that reads the refresh-token
configuration. -/
theorem c4_nonce_cookie_same_site (ext : Ext) (cfg : FilterConfig) (req : Request) (rand : Nat)
    (e1 e2 e3 : String)
    (h : lookupCookie req.cookies cfg.cookieNames.oauthNonce = none) :
    (redirectToOAuthServer ext cfg req rand).1 =
      .respond 302 ""
        [("set-cookie", cfg.cookieNames.oauthNonce ++ "=" ++
            generateCsrfToken ext.hmac cfg.hmacSecret rand ++
            (cookieDomainAttr cfg.cookieDomain ++ (";path=/;Max-Age=600;secure;HttpOnly" ++
              getSameSiteString cfg.nonceCookieSettings.sameSite))),
          ("location", ext.buildAuthUrl
            (encodeState ext.jsonSanitize
              ((if req.scheme = "http" then "http" else "https") ++ "://" ++ req.host ++ req.path)
              (generateCsrfToken ext.hmac cfg.hmacSecret rand))
            (ext.urlEncode req.formattedRedirectUri))] "oauth.missing_credentials" ∧
      BuildCookieTail cfg e1 e2 e3 6 =
        cookieDomainAttr cfg.cookieDomain ++ (";path=/;Max-Age=" ++ e1 ++ ";secure;HttpOnly" ++
          getSameSiteString cfg.refreshTokenCookieSettings.sameSite) := by
  constructor
  · simp only [redirectToOAuthServer, h]
  · rfl

/-- Concrete configuration whose nonce and refresh-token SameSite settings
differ, used to settle C4. -/
def nonceCfg : FilterConfig :=
  { nonceCookieSettings := { sameSite := .strict },
    refreshTokenCookieSettings := { sameSite := .noneValue } }

/-- Concrete request without a nonce cookie, used to settle C4. -/
def nonceReq : Request := { host := "h", path := "/app" }

/-- Counterexample to C4 as stated: with nonce SameSite Strict and
refresh-token SameSite None, the cookie emitted at redirect-to-IdP carries
`SameSite=Strict` - the nonce configuration, not the refresh-token one. -/
theorem c4_counterexample :
    nonceCfg.nonceCookieSettings.sameSite ≠ nonceCfg.refreshTokenCookieSettings.sameSite ∧
      (redirectToOAuthServer {} nonceCfg nonceReq 0).1 =
        .respond 302 ""
          [("set-cookie",
            "OauthNonce=0000000000000000.;path=/;Max-Age=600;secure;HttpOnly;SameSite=Strict"),
            ("location", "")] "oauth.missing_credentials" :=
  ⟨by decide, by decide⟩

/-- Witness for the amended C4 at the concrete configuration. -/
theorem c4_nonce_cookie_same_site_witness :
    (redirectToOAuthServer {} nonceCfg nonceReq 0).1 =
      .respond 302 ""
        [("set-cookie", nonceCfg.cookieNames.oauthNonce ++ "=" ++
            generateCsrfToken ({} : Ext).hmac nonceCfg.hmacSecret 0 ++
            (cookieDomainAttr nonceCfg.cookieDomain ++ (";path=/;Max-Age=600;secure;HttpOnly" ++
              getSameSiteString nonceCfg.nonceCookieSettings.sameSite))),
          ("location", ({} : Ext).buildAuthUrl
            (encodeState ({} : Ext).jsonSanitize
              ((if nonceReq.scheme = "http" then "http" else "https") ++ "://" ++
                nonceReq.host ++ nonceReq.path)
              (generateCsrfToken ({} : Ext).hmac nonceCfg.hmacSecret 0))
            (({} : Ext).urlEncode nonceReq.formattedRedirectUri))] "oauth.missing_credentials" ∧
      BuildCookieTail nonceCfg "3600" "im" "rm" 6 =
        cookieDomainAttr nonceCfg.cookieDomain ++
          (";path=/;Max-Age=" ++ "3600" ++ ";secure;HttpOnly" ++
            getSameSiteString nonceCfg.refreshTokenCookieSettings.sameSite) :=
  c4_nonce_cookie_same_site {} nonceCfg nonceReq 0 "3600" "im" "rm" (by decide)

/-- Claim C3 (amended): the refresh fast path applies exactly to requests
whose path does not match the callback matcher: for every such request with
an invalid session, `use_refresh_token` enabled and a non-empty refresh
cookie, the filter issues the async refresh with that refresh token and
pauses in stop-all-and-watermark mode. -/
theorem c3_refresh_fast_path_non_callback (ext : Ext) (cfg : FilterConfig) (req : Request)
    (now rand : Nat) (hpt : req.passThroughMatches = false)
    (hso : cfg.signoutMatch req.path = false)
    (hinv : isValid ext.hmac cfg.cookieDomain
      (setParams cfg.cookieNames req.cookies req.host cfg.hmacSecret) now = false)
    (hcb : cfg.redirectMatch req.path = false)
    (hurt : cfg.useRefreshToken = true)
    (hrt : (setParams cfg.cookieNames req.cookies req.host cfg.hmacSecret).refreshToken ≠ "") :
    decodeHeaders ext cfg req now rand =
      ⟨.refreshPause (setParams cfg.cookieNames req.cookies req.host cfg.hmacSecret).refreshToken,
        .stopAllIterationAndWatermark, {}⟩ := by
  simp only [decodeHeaders, hpt, hso, hinv, hcb, hurt, canUpdateTokenByRefreshToken,
    Bool.false_eq_true, if_false, Bool.not_false, Bool.true_and, if_true]
  simp [hrt]

/-- Concrete configuration with refresh tokens enabled and a callback
matcher, used to settle C3. -/
def refreshCfg : FilterConfig :=
  { useRefreshToken := true, redirectMatch := fun p => p == "/_oauth" }

/-- Concrete callback-path request with an invalid session and a refresh
cookie, used to refute C3 as stated. -/
def refreshReq : Request :=
  { host := "h", path := "/_oauth", cookies := [("RefreshToken", "R"), ("OauthHMAC", "x")] }

/-- Counterexample to C3 as stated: a callback-path request with an invalid
session, refresh enabled and refresh cookie `R` is not paused on
`async_refresh_access_token`; the filter runs callback validation and sends
the unauthorized response instead. -/
theorem c3_counterexample :
    refreshCfg.useRefreshToken = true ∧
      (setParams refreshCfg.cookieNames refreshReq.cookies refreshReq.host
        refreshCfg.hmacSecret).refreshToken = "R" ∧
      isValid ({} : Ext).hmac refreshCfg.cookieDomain
        (setParams refreshCfg.cookieNames refreshReq.cookies refreshReq.host
          refreshCfg.hmacSecret) 0 = false ∧
      decodeHeaders {} refreshCfg refreshReq 0 0 =
        ⟨sendUnauthorizedAction, .stopIteration, { oauthFailure := 1 }⟩ ∧
      decodeHeaders {} refreshCfg refreshReq 0 0 ≠
        ⟨.refreshPause "R", .stopAllIterationAndWatermark, {}⟩ :=
  ⟨rfl, by decide, by decide, by decide, by decide⟩

/-- Concrete non-callback request with an invalid session and a refresh
cookie, used as witness input for the amended C3. -/
def refreshReq2 : Request := { host := "h", path := "/app", cookies := [("RefreshToken", "R")] }

/-- Witness for the amended C3 at the concrete non-callback request. -/
theorem c3_refresh_fast_path_witness :
    decodeHeaders {} refreshCfg refreshReq2 0 0 =
      ⟨.refreshPause (setParams refreshCfg.cookieNames refreshReq2.cookies refreshReq2.host
          refreshCfg.hmacSecret).refreshToken,
        .stopAllIterationAndWatermark, {}⟩ :=
  c3_refresh_fast_path_non_callback {} refreshCfg refreshReq2 0 0 rfl (by decide) (by decide)
    (by decide) rfl (by decide)

theorem validateOAuthCallback_chars (ext : Ext) (cfg : FilterConfig) (req : Request) :
    (validateOAuthCallback ext cfg req).isValid = false ∨
      ∃ u, ext.urlParse (validateOAuthCallback ext cfg req).originalRequestUrl = some u := by
  unfold validateOAuthCallback
  repeat' split
  all_goals try exact Or.inl rfl
  rename_i u heq
  exact Or.inr ⟨u, by simpa using heq⟩

/-- Claim C5: for a valid-session request on the callback path whose callback
validation succeeds, the decoded original request URL re-parses, and the
filter responds 401 without any redirect when the URL's path-plus-query
matches the redirect-path matcher (loop guard), and otherwise emits the 302
race redirect to the decoded URL. -/
theorem c5_loop_guard (ext : Ext) (cfg : FilterConfig) (req : Request) (now rand : Nat)
    (hpt : req.passThroughMatches = false) (hso : cfg.signoutMatch req.path = false)
    (hvalid : isValid ext.hmac cfg.cookieDomain
      (setParams cfg.cookieNames req.cookies req.host cfg.hmacSecret) now = true)
    (hcb : cfg.redirectMatch req.path = true)
    (hres : (validateOAuthCallback ext cfg req).isValid = true) :
    ∃ u, ext.urlParse (validateOAuthCallback ext cfg req).originalRequestUrl = some u ∧
      decodeHeaders ext cfg req now rand =
        (if cfg.redirectMatch u.pathAndQueryParams then
          ⟨.respond 401 "OAuth flow failed." [] "", .stopIteration,
            { oauthSuccess := 1, oauthFailure := 1 }⟩
        else
          ⟨.respond 302 "" [("location", (validateOAuthCallback ext cfg req).originalRequestUrl)]
            "oauth.race_redirect", .stopIteration, { oauthSuccess := 1 }⟩) := by
  rcases validateOAuthCallback_chars ext cfg req with hbad | ⟨u, hu⟩
  · rw [hres] at hbad
    exact absurd hbad (by simp)
  · refine ⟨u, hu, ?_⟩
    simp only [decodeHeaders, hpt, hso, hvalid, hcb, hres, hu, Bool.false_eq_true, if_false,
      if_true]
    rfl

/-- External collaborators for the C5 witness: the state decodes to a JSON
object carrying the original URL and the CSRF token, and only that URL
parses. -/
def raceExt : Ext :=
  { base64UrlDecode := id,
    jsonParse := fun s =>
      if s = "S" then some [("url", .str "https://h/app"), ("csrf_token", .str "abc.")]
      else none,
    urlParse := fun s => if s = "https://h/app" then some ⟨"/app"⟩ else none }

/-- Concrete callback configuration for the C5 witness. -/
def raceCfg : FilterConfig := { redirectMatch := fun p => p == "/_oauth" }

/-- Concrete valid-session callback request for the C5 witness. -/
def raceReq : Request :=
  { host := "h", path := "/_oauth",
    cookies := [("OauthExpires", "100"), ("OauthNonce", "abc.")],
    queryParams := [("code", "C"), ("state", "S")] }

/-- Witness for C5 at the concrete valid-session callback request. -/
theorem c5_loop_guard_witness :
    ∃ u, raceExt.urlParse (validateOAuthCallback raceExt raceCfg raceReq).originalRequestUrl =
        some u ∧
      decodeHeaders raceExt raceCfg raceReq 0 0 =
        (if raceCfg.redirectMatch u.pathAndQueryParams then
          ⟨.respond 401 "OAuth flow failed." [] "", .stopIteration,
            { oauthSuccess := 1, oauthFailure := 1 }⟩
        else
          ⟨.respond 302 ""
            [("location", (validateOAuthCallback raceExt raceCfg raceReq).originalRequestUrl)]
            "oauth.race_redirect", .stopIteration, { oauthSuccess := 1 }⟩) :=
  c5_loop_guard raceExt raceCfg raceReq 0 0 rfl (by decide) (by decide) (by decide) (by decide)

theorem redirectToOAuthServer_unauthorized (ext : Ext) (cfg : FilterConfig) (req : Request)
    (rand : Nat) :
    (redirectToOAuthServer ext cfg req rand).2.oauthFailure ≤ 1 ∧
      ((redirectToOAuthServer ext cfg req rand).2.oauthFailure = 1 ↔
        (redirectToOAuthServer ext cfg req rand).1 = sendUnauthorizedAction) := by
  unfold redirectToOAuthServer
  cases lookupCookie req.cookies cfg.cookieNames.oauthNonce with
  | none => simp [sendUnauthorizedAction]
  | some v =>
    cases hv : validateCsrfTokenHmac ext.hmac cfg.hmacSecret v <;>
      simp [hv, sendUnauthorizedAction]

/-- Claim C8: over all requests, the decision machine increments
`oauth_failure` at most once, and it increments it exactly once precisely
when its outcome is the unauthorized local response - HTTP 401 with the
plaintext body `OAuth flow failed.` and no extra headers; every unauthorized
outcome (invalid callback, CSRF mismatch on redirect, loop guard, denied
redirect) therefore produces that response with a single
`oauth_failure` increment. -/
theorem c8_unauthorized_response (ext : Ext) (cfg : FilterConfig) (req : Request)
    (now rand : Nat) :
    (decodeHeaders ext cfg req now rand).stats.oauthFailure ≤ 1 ∧
      ((decodeHeaders ext cfg req now rand).stats.oauthFailure = 1 ↔
        (decodeHeaders ext cfg req now rand).action =
          .respond 401 "OAuth flow failed." [] "") := by
  have hr := redirectToOAuthServer_unauthorized ext cfg req rand
  simp only [decodeHeaders]
  repeat' split
  all_goals
    simp_all [signOutUser, sendUnauthorizedAction, unauthorizedBodyMessage]

end Oauth2
